import Mathlib

/-!
# Verification of the sdx kernel disk layer (`src/kernel/core/disk.c`)

Shallow embedding of the disk abstraction layer: the partition lifecycle
manager (`disk_part_add`, `__disk_part_block`, `disk_part_clear`,
`disk_scan`), the controller dispatch (`__disk_do_raw`) and the sector
translation engine (`__disk_do_size`).

Modelling conventions:
* C pointers to partitions are modelled by allocation identifiers
  (`DiskPart.id`); the allocator (`vmm_alloc`) is modelled as always
  succeeding, with `Disk.nextId` playing the role of a fresh address.
* The singly linked partition list `disk->parts` is a `List DiskPart`
  in list order (head first).  `slist_find` (from `util/list.h`, not in
  the sources) is `List.find?`; `slist_add` is modelled from the spec
  (insertion-ordered list) as appending at the tail.
* The VFS mount registry (`fs/vfs.c`, external collaborator) is modelled
  from the spec as the list of partition ids that currently have a
  `VFS_TYPE_DISK` registration, in registration order:
  `vfs_register` appends, `vfs_unregister` removes the entry,
  `__disk_part_find_vfs` finds the first registration for a partition.
* Raw controller calls performed by the sector translation engine are
  external hardware I/O; their success/failure is an oracle indexed by
  the call number, and the engine additionally returns the trace of raw
  calls it issued and of the scratch-buffer copies it performed.
-/

namespace Sdx

/-- One partition entry (`disk_part_t`): allocation identity, start,
size, and the `available` flag used during reconciliation. -/
structure DiskPart where
  id : Nat
  start : Nat
  size : Nat
  available : Bool
deriving Repr, DecidableEq

/-- The mutable per-disk state relevant to the partition lifecycle
(`disk_t`): the partition list, `part_count`, the `available` flag,
`sector_size`, plus the allocator counter for fresh partition ids. -/
structure Disk where
  parts : List DiskPart
  part_count : Nat
  available : Bool
  sector_size : Nat
  nextId : Nat
deriving Repr, DecidableEq

/-- The match predicate of `disk_part_add`
(`p1->start == start && p1->size == size`). -/
def disk_part_match (start size : Nat) (p : DiskPart) : Bool :=
  p.start == start && p.size == size

/-- `disk_part_add` (disk.c:29-56): look up an existing partition with
the same `(start, size)`; if found, return it unchanged; otherwise
allocate a zero-initialised entry (`bzero`, hence `available = false`),
set `start`, `size`, link it into the list and increment `part_count`.
Returns the updated disk and the id of the returned partition. -/
def disk_part_add (d : Disk) (start size : Nat) : Disk × Nat :=
  match d.parts.find? (disk_part_match start size) with
  | some p => (d, p.id)
  | none =>
      let newPart : DiskPart :=
        { id := d.nextId, start := start, size := size, available := false }
      ({ d with
          parts := d.parts ++ [newPart]
          part_count := d.part_count + 1
          nextId := d.nextId + 1 },
       d.nextId)

/-- `__disk_part_block` (disk.c:58-68): clear every partition's
`available` flag. -/
def __disk_part_block (d : Disk) : Disk :=
  { d with parts := d.parts.map fun p => { p with available := false } }

/-- Mount registry state: ids of partitions having a `VFS_TYPE_DISK`
registration, in registration order.  Modelled from the spec: `fs/vfs.c`
is an external collaborator (register / unregister / find). -/
abbrev Mounts := List Nat

/-- `__disk_part_find_vfs` (disk.c:70-78): whether some VFS entry is
registered for this partition (the C returns the first such entry). -/
def __disk_part_find_vfs (mounts : Mounts) (partId : Nat) : Bool :=
  mounts.contains partId

/-- The sweep loop of `disk_part_clear` (disk.c:87-113), threading the
mount registry and `part_count` through the list walk: an `available`
partition is kept (registering a mount if it has none); an unavailable
one has its mount unregistered (if any), is unlinked and freed, and
`part_count` is decremented. -/
def disk_part_clear_loop (mounts : Mounts) (cnt : Nat) :
    List DiskPart → List DiskPart × Mounts × Nat
  | [] => ([], mounts, cnt)
  | p :: rest =>
      if p.available then
        let mounts' := if __disk_part_find_vfs mounts p.id then mounts
                       else mounts ++ [p.id]
        let r := disk_part_clear_loop mounts' cnt rest
        (p :: r.1, r.2)
      else
        let mounts' := if __disk_part_find_vfs mounts p.id then mounts.erase p.id
                       else mounts
        disk_part_clear_loop mounts' (cnt - 1) rest

/-- `disk_part_clear` (disk.c:80-114): reconcile the partition list and
the mount registry after a successful table parse. -/
def disk_part_clear (d : Disk) (mounts : Mounts) : Disk × Mounts :=
  let r := disk_part_clear_loop mounts d.part_count d.parts
  ({ d with parts := r.1, part_count := r.2.2 }, r.2.1)

/-- Modelled from the spec: the partition-table parsers (`core/gpt.c`,
`core/mbr.c`) are external collaborators not present in the sources.
Per the spec, a parser that successfully recognises a table calls
`disk_part_add` for every partition it finds and the entry ends up
marked `available = true` (matching existing entries are re-marked,
genuinely new ones start available).  This function performs those
callbacks for one reported `(start, size)`. -/
def parser_report_one (d : Disk) (start size : Nat) : Disk :=
  let r := disk_part_add d start size
  { r.1 with
      parts := r.1.parts.map fun p =>
        if p.id == r.2 then { p with available := true } else p }

/-- Modelled from the spec: all callbacks of one successful parser run,
in table order. -/
def parser_report (d : Disk) (found : List (Nat × Nat)) : Disk :=
  found.foldl (fun d pr => parser_report_one d pr.1 pr.2) d

/-- Outcome of the external collaborators consulted by `disk_scan`:
the result of the `DISK_OP_INFO` query issued through the I/O path
(an external controller primitive), and the results of the GPT and MBR
parsers — `some found` when the parser recognises a table listing the
`(start, size)` pairs it reports, `none` when it fails. -/
structure ScanEnv where
  infoOk : Bool
  gptResult : Option (List (Nat × Nat))
  mbrResult : Option (List (Nat × Nat))

/-- `disk_scan` (disk.c:117-146): clear `available` and block all
partitions; query disk info (fail fatally on failure); try the GPT
parser (only when `CONFIG_CORE_GPT` is set, modelled by `gptEnabled`)
then the MBR parser; on the first success reconcile via
`disk_part_clear` and mark the disk available; if no parser matched,
fail with the partitions blocked but intact. -/
def disk_scan (env : ScanEnv) (gptEnabled : Bool) (d : Disk) (mounts : Mounts) :
    Bool × Disk × Mounts :=
  let d := { __disk_part_block d with available := false }
  if !env.infoOk then
    (false, d, mounts)
  else
    match (if gptEnabled then env.gptResult else none).orElse fun _ => env.mbrResult with
    | some found =>
        let d := parser_report d found
        let r := disk_part_clear d mounts
        (true, { r.1 with available := true }, r.2)
    | none => (false, d, mounts)

/-! ## Controller dispatch and the sector translation engine -/

/-- The I/O operation selector (`disk_op_t`, declared in `core/disk.h`). -/
inductive DiskOp where
  | read
  | write
  | info
deriving Repr, DecidableEq

/-- The controller kind of a disk (`disk_controller_t`).  The dispatch
switch in `__disk_do_raw` recognises exactly `DISK_CONTROLLER_AHCI`;
`other k` stands for any unrecognised enum value. -/
inductive DiskController where
  | ahci
  | other (k : Nat)
deriving Repr, DecidableEq

/-- Outcome of `__disk_do_raw`: either the boolean result of the
controller primitive, or a kernel panic (the `default:` branch calls
`panic` and never returns). -/
inductive RawOutcome where
  | result (b : Bool)
  | panicked
deriving Repr, DecidableEq

/-- `__disk_do_raw` (disk.c:195-212): dispatch on the disk's controller
kind; for AHCI call `ahci_port_do` on the disk's controller state and
propagate its boolean result unchanged; for any other kind, panic.
`port_do` abstracts `ahci_port_do` applied to `disk->data` (the AHCI
driver is an external collaborator). -/
def __disk_do_raw (port_do : DiskOp → Nat → Nat → Bool)
    (controller : DiskController) (op : DiskOp) (lba sector_count : Nat) :
    RawOutcome :=
  match controller with
  | .ahci => .result (port_do op lba sector_count)
  | .other _ => .panicked

/-- Where a raw call of the translation engine transfers data:
directly into/from the caller's buffer at a byte offset
(`buf + buf_offset`), or the one-sector scratch buffer `cb`. -/
inductive Target where
  | caller (off : Nat)
  | scratch
deriving Repr, DecidableEq

/-- One raw controller call issued by `__disk_do_size`: the sector
address passed, the sector count, and the buffer it targets. -/
structure RawCall where
  lba : Nat
  sector_count : Nat
  target : Target
deriving Repr, DecidableEq

/-- Direction of a scratch-buffer `memcpy`. -/
inductive CopyDir where
  | scratchToCaller
  | callerToScratch
deriving Repr, DecidableEq

/-- One scratch-buffer copy performed by `__disk_do_size`: destination
byte offset in the caller's buffer, length, and direction.  The single
`memcpy` in the source (disk.c:239) is
`memcpy(buf + buf_offset, cb, rem)`, i.e. scratch-to-caller. -/
structure CopyEvt where
  dst_off : Nat
  len : Nat
  dir : CopyDir
deriving Repr, DecidableEq

/-- Result of a run of `__disk_do_size`: the returned boolean, the
trace of raw calls issued, and the trace of scratch copies performed. -/
structure DoSizeResult where
  ok : Bool
  calls : List RawCall
  copies : List CopyEvt
deriving Repr, DecidableEq

/-- Intermediate state of the whole-sector loop of `__disk_do_size`:
whether it completed, the raw calls issued so far, the next oracle
index, and the final `buf_offset`. -/
structure LoopOut where
  ok : Bool
  calls : List RawCall
  idx : Nat
  off : Nat
deriving Repr, DecidableEq

/-- The whole-sector loop of `__disk_do_size` (disk.c:223-228):
`while (size != rem)` issues a single-sector raw call at `lba` —
the source never increments `lba` — into the caller's buffer at
`buf_offset`, aborting on the first failure; each iteration advances
`buf_offset` by `sector_size` and the loop runs `size / sector_size`
times.  `oracle i` is the result of the i-th raw call of this run. -/
def __disk_do_loop (oracle : Nat → Bool) (sector_size lba : Nat) :
    Nat → Nat → Nat → LoopOut
  | 0, i, off => ⟨true, [], i, off⟩
  | n + 1, i, off =>
      let c : RawCall := ⟨lba, 1, .caller off⟩
      if oracle i then
        let r := __disk_do_loop oracle sector_size lba n (i + 1) (off + sector_size)
        ⟨r.ok, c :: r.calls, r.idx, r.off⟩
      else
        ⟨false, [c], i + 1, off⟩

/-- `__disk_do_size` (disk.c:214-241): transfer `size` bytes at sector
address `lba`.  If `size` is sector-aligned, one batched raw call on the
caller's buffer.  Otherwise run the single-sector loop for the whole
sectors (skipped via `goto do_copy` when `size < sector_size`, which
coincides with the loop running `size / sector_size = 0` times), then
handle the trailing `rem = size % sector_size` bytes with one raw call
on the scratch buffer followed by `memcpy(buf + buf_offset, cb, rem)`;
that final raw call's result is returned after the copy. -/
def __disk_do_size (oracle : Nat → Bool) (sector_size : Nat) (op : DiskOp)
    (lba size : Nat) : DoSizeResult :=
  let sector_count := size / sector_size
  let rem := size % sector_size
  if rem = 0 then
    ⟨oracle 0, [⟨lba, sector_count, .caller 0⟩], []⟩
  else
    let r := __disk_do_loop oracle sector_size lba sector_count 0 0
    if !r.ok then
      ⟨false, r.calls, []⟩
    else
      let ret := oracle r.idx
      ⟨ret, r.calls ++ [⟨lba, 1, .scratch⟩], [⟨r.off, rem, .scratchToCaller⟩]⟩

/-- `disk_do` (disk.c:243-246): currently forwards the offset as an LBA
to `__disk_do_size` unchanged. -/
def disk_do (oracle : Nat → Bool) (sector_size : Nat) (op : DiskOp)
    (offset size : Nat) : DoSizeResult :=
  __disk_do_size oracle sector_size op offset size

/-- A freshly added, empty disk (as produced by `disk_add`):
no partitions, default sector size, not yet available. -/
def disk0 : Disk :=
  { parts := [], part_count := 0, available := false, sector_size := 512, nextId := 0 }

/-- A disk owning partitions A (id 0, at `(sA, zA)`) and B (id 1, at
`(sB, zB)`), both having survived a previous scan. -/
def diskAB (sA zA sB zB : Nat) : Disk :=
  { parts := [⟨0, sA, zA, true⟩, ⟨1, sB, zB, true⟩]
    part_count := 2
    available := true
    sector_size := 512
    nextId := 2 }

/-! ## Helper lemmas -/

/-- If no element of `l` satisfies `p`, searching `l ++ [a]` finds `a`
exactly when `a` satisfies `p`. -/
theorem find?_append_of_none {α : Type} (p : α → Bool) (l : List α) (a : α)
    (h : l.find? p = none) :
    (l ++ [a]).find? p = if p a then some a else none := by
  induction l with
  | nil => cases hpa : p a <;> simp [List.find?, hpa]
  | cons x xs ih =>
      rw [List.find?_cons] at h
      rcases hx : p x with _ | _
      · simp only [List.cons_append, List.find?_cons, hx]
        exact ih (by simpa [hx] using h)
      · simp [hx] at h

/-- The sweep loop decrements the running count exactly once per node it
drops: if the count starts at `X` plus the length of the remaining list,
it ends at `X` plus the length of the kept list. -/
theorem clear_loop_count (ps : List DiskPart) :
    ∀ (mounts : Mounts) (cnt X : Nat), cnt = X + ps.length →
      (disk_part_clear_loop mounts cnt ps).2.2 =
        X + (disk_part_clear_loop mounts cnt ps).1.length := by
  induction ps with
  | nil => intro mounts cnt X h; simpa [disk_part_clear_loop] using h
  | cons p rest ih =>
      intro mounts cnt X h
      by_cases hav : p.available = true
      · have := ih (if __disk_part_find_vfs mounts p.id then mounts
                    else mounts ++ [p.id]) cnt (X + 1)
          (by simp at h; omega)
        simp only [disk_part_clear_loop, hav, if_true]
        simp only [List.length_cons]
        rw [this]
        omega
      · replace hav : p.available = false := by
          cases hp : p.available
          · rfl
          · exact absurd hp hav
        have hcnt : cnt - 1 = X + rest.length := by simp at h; omega
        have := ih (if __disk_part_find_vfs mounts p.id then mounts.erase p.id
                    else mounts) (cnt - 1) X hcnt
        simpa [disk_part_clear_loop, hav] using this

/-- When the oracle answers true for all `n` calls starting at index
`i`, the whole-sector loop completes, consumes `n` oracle answers and
advances the buffer offset by `n` sectors. -/
theorem do_loop_all_ok (oracle : Nat → Bool) (ss lba : Nat) :
    ∀ (n i off : Nat), (∀ j, j < n → oracle (i + j) = true) →
      (__disk_do_loop oracle ss lba n i off).ok = true ∧
      (__disk_do_loop oracle ss lba n i off).idx = i + n ∧
      (__disk_do_loop oracle ss lba n i off).off = off + n * ss := by
  intro n
  induction n with
  | zero => intro i off _; simp [__disk_do_loop]
  | succ m ih =>
      intro i off h
      have h0 : oracle i = true := by simpa using h 0 (Nat.succ_pos m)
      have hrec := ih (i + 1) (off + ss)
        (fun j hj => by
          have := h (j + 1) (Nat.succ_lt_succ hj)
          simpa [Nat.add_assoc, Nat.add_comm 1 j] using this)
      simp only [__disk_do_loop, h0, if_true]
      refine ⟨hrec.1, ?_, ?_⟩
      · rw [hrec.2.1]; omega
      · rw [hrec.2.2]; ring

/-! ## The claims -/

/-- C1: the spec claims that for sector_size 512, a read of 1300 bytes
at lba 10 issues single-sector reads of sectors 10 and 11 into the
caller's buffer and then a read of sector 12 into the scratch buffer,
each successive raw call targeting the next consecutive sector.  The
code instead issues all three raw calls at sector address 10: the loop
in `__disk_do_size` never increments `lba`, contradicting the source's
own header comment that `disk_do` reads any amount of data from any
offset.  This theorem evaluates the engine at the failing input. -/
theorem C1_code_behavior :
    __disk_do_size (fun _ => true) 512 .read 10 1300 =
      ⟨true,
       [⟨10, 1, .caller 0⟩, ⟨10, 1, .caller 512⟩, ⟨10, 1, .scratch⟩],
       [⟨1024, 276, .scratchToCaller⟩]⟩ := by
  decide

/-- C2 counterexample: `disk_part_add` zero-initialises a genuinely new
entry, so its `available` flag is false at creation, not true; and a
matching add returns the existing entry without setting its `available`
flag, so a still-blocked entry stays unavailable. -/
theorem C2_counterexample :
    ((disk_part_add ⟨[], 0, false, 512, 0⟩ 5 7).1.parts.map
        (fun p => p.available) = [false]) ∧
    ((disk_part_add (disk_part_add ⟨[], 0, false, 512, 0⟩ 5 7).1 5 7).1.parts.map
        (fun p => p.available) = [false]) := by
  decide

/-- C2 (amended): `disk_part_add` either leaves the partition list
completely unchanged (the `(start, size)` match case — in particular it
does not mark the matching entry available) or appends exactly one new
entry whose `available` flag is false at creation. -/
theorem C2_amended_add (d : Disk) (s z : Nat) :
    (disk_part_add d s z).1.parts = d.parts ∨
    (disk_part_add d s z).1.parts =
      d.parts ++ [{ id := d.nextId, start := s, size := z, available := false }] := by
  unfold disk_part_add
  rcases h : d.parts.find? (disk_part_match s z) with _ | p
  · right; rfl
  · left; rfl

/-- C3: the spec claims the direction of the trailing partial-sector
copy depends on read vs write (a write transfers the caller's bytes
toward the device).  The code performs the one `memcpy` in
`__disk_do_size` as `memcpy(buf + buf_offset, cb, rem)` — scratch
buffer to caller — for writes as well, so a write of 276 bytes issues
the raw write from the (never filled) scratch buffer and then
overwrites the caller's buffer from it.  This theorem evaluates the
engine at the failing input. -/
theorem C3_code_behavior :
    __disk_do_size (fun _ => true) 512 .write 0 276 =
      ⟨true, [⟨0, 1, .scratch⟩], [⟨0, 276, .scratchToCaller⟩]⟩ := by
  decide

/-- C5: if the info query of `disk_scan` fails, the scan returns
failure, the disk is left unavailable, no partition is deleted — the
entries survive with only their `available` flags cleared,
`part_count` is unchanged — and the mount registry is untouched. -/
theorem C5_info_failure (gres mres : Option (List (Nat × Nat))) (g : Bool)
    (d : Disk) (mounts : Mounts) :
    disk_scan ⟨false, gres, mres⟩ g d mounts =
      (false,
       { d with
           available := false
           parts := d.parts.map fun p => { p with available := false } },
       mounts) := by
  simp [disk_scan, __disk_part_block]

/-- C7: for a size that is an exact multiple of the sector size, the
engine issues exactly one batched raw call of `size / sector_size`
sectors directly on the caller's buffer and performs zero
scratch-buffer copies, returning the raw call's result. -/
theorem C7_aligned (oracle : Nat → Bool) (ss : Nat) (op : DiskOp)
    (lba size : Nat) (h0 : 0 < ss) (h : size % ss = 0) :
    __disk_do_size oracle ss op lba size =
      ⟨oracle 0, [⟨lba, size / ss, .caller 0⟩], []⟩ := by
  simp [__disk_do_size, h]

/-- C7 witness: a 1024-byte transfer on a 512-byte-sector disk is one
batched raw call of 2 sectors and no copies. -/
theorem C7_aligned_witness :
    (0 < 512 ∧ 1024 % 512 = 0) ∧
    __disk_do_size (fun _ => true) 512 .read 7 1024 =
      ⟨(fun _ : Nat => true) 0, [⟨7, 1024 / 512, .caller 0⟩], []⟩ :=
  ⟨⟨by decide, by decide⟩,
   C7_aligned (fun _ => true) 512 .read 7 1024 (by decide) (by decide)⟩

/-- C9: dispatching a raw operation on a disk whose controller kind is
unrecognised panics instead of returning an error; for the recognised
AHCI kind the boolean result of the controller primitive is propagated
unchanged. -/
theorem C9_dispatch (port_do : DiskOp → Nat → Nat → Bool) (op : DiskOp)
    (lba cnt : Nat) :
    (∀ k, __disk_do_raw port_do (.other k) op lba cnt = .panicked) ∧
    __disk_do_raw port_do .ahci op lba cnt = .result (port_do op lba cnt) :=
  ⟨fun _ => rfl, rfl⟩

/-- C4: for a disk owning partitions A and B, both mounted, a scan
whose (spec-modelled) parser reports only A ends with: B's mount
unregistered and B deleted, A's mount still registered exactly once
(not re-registered), `part_count = 1`, and the disk available. -/
theorem C4_reconcile (sA zA sB zB : Nat) :
    disk_scan ⟨true, none, some [(sA, zA)]⟩ false (diskAB sA zA sB zB) [0, 1] =
      (true,
       { parts := [⟨0, sA, zA, true⟩]
         part_count := 1
         available := true
         sector_size := 512
         nextId := 2 },
       [0]) := by
  simp [disk_scan, diskAB, __disk_part_block, parser_report, parser_report_one,
        disk_part_add, disk_part_match, List.find?, disk_part_clear,
        disk_part_clear_loop, __disk_part_find_vfs, List.erase, Option.orElse]

/-- C6: adding the same `(start, size)` twice is idempotent — given the
dedup invariant I2 (at most one entry with that identity), the second
`disk_part_add` changes nothing, returns the same handle as the first,
the disk owns exactly one partition with that identity afterwards, and
`part_count` is unchanged by the second call. -/
theorem C6_idempotent (d : Disk) (s z : Nat)
    (h : d.parts.countP (disk_part_match s z) ≤ 1) :
    (disk_part_add (disk_part_add d s z).1 s z).1 = (disk_part_add d s z).1 ∧
    (disk_part_add (disk_part_add d s z).1 s z).2 = (disk_part_add d s z).2 ∧
    (disk_part_add (disk_part_add d s z).1 s z).1.parts.countP (disk_part_match s z) = 1 ∧
    (disk_part_add (disk_part_add d s z).1 s z).1.part_count = (disk_part_add d s z).1.part_count := by
  rcases hf : d.parts.find? (disk_part_match s z) with _ | p
  · have hzero : d.parts.countP (disk_part_match s z) = 0 :=
      List.countP_eq_zero.mpr (by simpa using List.find?_eq_none.mp hf)
    have hnew : disk_part_match s z
        { id := d.nextId, start := s, size := z, available := false } = true := by
      simp [disk_part_match]
    have hfind2 : (d.parts ++
        [({ id := d.nextId, start := s, size := z, available := false } : DiskPart)]).find?
          (disk_part_match s z) =
        some { id := d.nextId, start := s, size := z, available := false } := by
      rw [find?_append_of_none _ _ _ hf, hnew]; rfl
    constructor
    · unfold disk_part_add
      simp [hf, hfind2]
    constructor
    · unfold disk_part_add
      simp [hf, hfind2]
    constructor
    · unfold disk_part_add
      simp [hf, hfind2, List.countP_append, hzero, List.countP_cons, hnew]
    · unfold disk_part_add
      simp [hf, hfind2]
  · have hone : d.parts.countP (disk_part_match s z) = 1 := by
      have hpos : 0 < d.parts.countP (disk_part_match s z) :=
        List.countP_pos_iff.mpr ⟨p, List.mem_of_find?_eq_some hf, List.find?_some hf⟩
      omega
    constructor
    · unfold disk_part_add
      simp [hf]
    constructor
    · unfold disk_part_add
      simp [hf]
    constructor
    · unfold disk_part_add
      simp [hf, hone]
    · unfold disk_part_add
      simp [hf]

/-- C6 witness: adding `(3, 4)` twice to a fresh empty disk. -/
theorem C6_idempotent_witness :
    disk0.parts.countP (disk_part_match 3 4) ≤ 1 ∧
    ((disk_part_add (disk_part_add disk0 3 4).1 3 4).1 = (disk_part_add disk0 3 4).1 ∧
     (disk_part_add (disk_part_add disk0 3 4).1 3 4).2 = (disk_part_add disk0 3 4).2 ∧
     (disk_part_add (disk_part_add disk0 3 4).1 3 4).1.parts.countP (disk_part_match 3 4) = 1 ∧
     (disk_part_add (disk_part_add disk0 3 4).1 3 4).1.part_count = (disk_part_add disk0 3 4).1.part_count) :=
  ⟨by decide, C6_idempotent disk0 3 4 (by decide)⟩

/-- C8: the invariant `part_count = number of live entries in parts` is
preserved both by `disk_part_add` (which increments the count exactly
when it links a new node) and by `disk_part_clear` (which decrements it
exactly once per node it unlinks and frees). -/
theorem C8_part_count_invariant (d : Disk) (s z : Nat) (mounts : Mounts)
    (h : d.part_count = d.parts.length) :
    (disk_part_add d s z).1.part_count = (disk_part_add d s z).1.parts.length ∧
    (disk_part_clear d mounts).1.part_count = (disk_part_clear d mounts).1.parts.length := by
  constructor
  · unfold disk_part_add
    rcases hf : d.parts.find? (disk_part_match s z) with _ | p
    · simp [h]
    · simpa using h
  · unfold disk_part_clear
    simpa using clear_loop_count d.parts mounts d.part_count 0 (by simpa using h)

/-- C8 witness: the invariant is preserved on a disk with one available
and one unavailable partition, the latter mounted. -/
theorem C8_part_count_invariant_witness :
    (diskAB 1 2 3 4).part_count = (diskAB 1 2 3 4).parts.length ∧
    ((disk_part_add (diskAB 1 2 3 4) 5 6).1.part_count =
       (disk_part_add (diskAB 1 2 3 4) 5 6).1.parts.length ∧
     (disk_part_clear (diskAB 1 2 3 4) [1]).1.part_count =
       (disk_part_clear (diskAB 1 2 3 4) [1]).1.parts.length) :=
  ⟨by decide, C8_part_count_invariant (diskAB 1 2 3 4) 5 6 [1] (by decide)⟩

/-- C10: when the size is not sector-aligned and the whole-sector loop
succeeds but the trailing single-sector raw call on the scratch buffer
fails, `__disk_do_size` returns failure — yet it still performs the
copy of `rem` bytes from the (then indeterminate) scratch buffer into
the caller's buffer at the remainder offset, so the caller's buffer is
modified in the remainder region despite the reported failure. -/
theorem C10_trailing_failure (oracle : Nat → Bool) (ss : Nat) (op : DiskOp)
    (lba size : Nat) (hrem : size % ss ≠ 0)
    (hloop : ∀ i, i < size / ss → oracle i = true)
    (hfail : oracle (size / ss) = false) :
    (__disk_do_size oracle ss op lba size).ok = false ∧
    (__disk_do_size oracle ss op lba size).copies =
      [⟨size / ss * ss, size % ss, .scratchToCaller⟩] ∧
    (__disk_do_size oracle ss op lba size).calls.getLast? =
      some ⟨lba, 1, .scratch⟩ := by
  have hl := do_loop_all_ok oracle ss lba (size / ss) 0 0
    (fun j hj => by simpa using hloop j hj)
  have hok := hl.1
  have hidx := hl.2.1
  have hoff := hl.2.2
  simp only [Nat.zero_add] at hidx hoff
  unfold __disk_do_size
  simp [hrem, hok, hidx, hoff, hfail, List.getLast?_concat]

/-- C10 witness: a 1300-byte transfer on a 512-byte-sector disk whose
controller answers the two loop calls but fails the trailing one. -/
theorem C10_trailing_failure_witness :
    (1300 % 512 ≠ 0) ∧
    ((∀ i, i < 1300 / 512 → (fun i => decide (i < 2)) i = true) ∧
     ((fun i => decide (i < 2)) (1300 / 512) = false)) ∧
    ((__disk_do_size (fun i => decide (i < 2)) 512 .read 10 1300).ok = false ∧
     (__disk_do_size (fun i => decide (i < 2)) 512 .read 10 1300).copies =
       [⟨1300 / 512 * 512, 1300 % 512, .scratchToCaller⟩] ∧
     (__disk_do_size (fun i => decide (i < 2)) 512 .read 10 1300).calls.getLast? =
       some ⟨10, 1, .scratch⟩) :=
  ⟨by decide, ⟨by decide, by decide⟩,
   C10_trailing_failure (fun i => decide (i < 2)) 512 .read 10 1300
     (by decide) (by decide) (by decide)⟩

end Sdx
